import Mathlib

/-!
Shallow embedding of `src/feed_generators/claude_blog.py` (an RSS feed
generator that scrapes a blog listing page, enriches each article with a
publish date and a description fetched from the article page, validates
the records and assembles a date-sorted feed).

Modelling conventions:
* HTTP fetches are parameters: a fetch is a function from a URL to an
  `Option` of the parsed page content, `none` standing for any
  `requests` exception or parse failure (the Python code catches all of
  these in the same `except` blocks).
* Parsed HTML pages are modelled by the observations the code makes of
  them: the listing page is a list of anchors (href and stripped text),
  an article page is the outcome of the fixed selector queries the code
  performs.  A found element is modelled as truthy.
* `datetime.now(pytz.UTC)` is a parameter `now` (a function of the
  article URL, standing for the wall clock at resolution time).
* All datetimes in the pipeline carry tzinfo UTC, so the timezone is not
  represented; a datetime is its seven numeric fields.
* Logging is not modelled (it is the only effect of the skipped-count
  counters, which are therefore omitted as well).
-/

/-- Model of an aware-UTC `datetime` value: its seven numeric fields. -/
structure DateTime where
  year : Nat
  month : Nat
  day : Nat
  hour : Nat
  minute : Nat
  second : Nat
  micro : Nat
deriving DecidableEq

/-- The fields of a datetime, most significant first.  Python compares
aware datetimes lexicographically on exactly this tuple. -/
def DateTime.fields (d : DateTime) : List Nat :=
  [d.year, d.month, d.day, d.hour, d.minute, d.second, d.micro]

/-- Python datetime comparison: lexicographic on the fields. -/
instance : LinearOrder DateTime :=
  LinearOrder.lift' DateTime.fields (by
    intro a b h
    cases a
    cases b
    simp only [DateTime.fields, List.cons.injEq, and_true] at h
    obtain ⟨h1, h2, h3, h4, h5, h6, h7⟩ := h
    subst h1; subst h2; subst h3; subst h4; subst h5; subst h6; subst h7
    rfl)

/-! ## String helpers (models of the Python `str` operations used) -/

/-- Model of Python `s.startswith(p)`. -/
def startsWithS (s p : String) : Bool :=
  p.toList.isPrefixOf s.toList

/-- Model of Python `s.endswith(p)`. -/
def endsWithS (s p : String) : Bool :=
  p.toList.reverse.isPrefixOf s.toList.reverse

/-- Helper for substring search: does `sub` occur in `l`? -/
def subOccurs (sub : List Char) : List Char → Bool
  | [] => sub.isEmpty
  | c :: cs => sub.isPrefixOf (c :: cs) || subOccurs sub cs

/-- Model of Python `sub in s` on strings. -/
def containsSubS (s sub : String) : Bool :=
  subOccurs sub.toList s.toList

/-- Model of Python `s[:n]` (slicing counts characters). -/
def takeS (s : String) (n : Nat) : String :=
  String.mk (s.toList.take n)

/-- Model of Python `a or b` on strings (empty string is falsy). -/
def pyOr (a b : String) : String :=
  if a = "" then b else a

/-! ## Model of `datetime.strptime` for the six formats the code uses

CPython `_strptime` compiles each directive to a regex: `%Y` is four
digits, `%m` `%d` `%H` `%M` `%S` are one or two digits (greedy), `%f` is
one to six digits (greedy), literal characters match case-insensitively,
whitespace in the format matches one or more whitespace characters, and
`%b`/`%B` match the English month names case-insensitively.  The matched
numbers are then validated by the `datetime` constructor (month 1-12,
day within the month, hour below 24, minute and second below 60); a
failed match or failed validation raises `ValueError`, modelled as
`none`.  The whole input string must be consumed. -/

/-- Take at most `n` leading digits. -/
def takeDigits : Nat → List Char → List Char × List Char
  | 0, cs => ([], cs)
  | _ + 1, [] => ([], [])
  | n + 1, c :: cs =>
    if c.isDigit then
      let p := takeDigits n cs
      (c :: p.1, p.2)
    else ([], c :: cs)

/-- Numeric value of a digit list. -/
def digitsToNat (ds : List Char) : Nat :=
  ds.foldl (fun a c => a * 10 + (c.toNat - 48)) 0

/-- Parse between `lo` and `hi` digits (greedy), returning the value. -/
def pNum (lo hi : Nat) (cs : List Char) : Option (Nat × List Char) :=
  let p := takeDigits hi cs
  if lo ≤ p.1.length then some (digitsToNat p.1, p.2) else none

/-- Parse `%f`: one to six digits, scaled to microseconds. -/
def pFrac (cs : List Char) : Option (Nat × List Char) :=
  let p := takeDigits 6 cs
  if 1 ≤ p.1.length then
    some (digitsToNat p.1 * 10 ^ (6 - p.1.length), p.2)
  else none

/-- Parse one literal character, case-insensitively. -/
def pCharCI (c : Char) (cs : List Char) : Option (List Char) :=
  match cs with
  | [] => none
  | x :: rest => if x.toLower = c.toLower then some rest else none

/-- Parse one or more whitespace characters (format whitespace). -/
def pWs (cs : List Char) : Option (List Char) :=
  match cs with
  | [] => none
  | c :: rest =>
    if c.isWhitespace then some (rest.dropWhile Char.isWhitespace) else none

/-- Require the end of the input (strptime rejects leftover data). -/
def pEnd (cs : List Char) : Option Unit :=
  if cs.isEmpty then some () else none

def monthAbbrevs : List String :=
  ["jan", "feb", "mar", "apr", "may", "jun", "jul", "aug", "sep", "oct", "nov", "dec"]

def monthFulls : List String :=
  ["january", "february", "march", "april", "may", "june", "july", "august",
   "september", "october", "november", "december"]

/-- Match one of the month names (case-insensitively) as a prefix,
returning the month number. -/
def pMonthAux (cs : List Char) : List String → Nat → Option (Nat × List Char)
  | [], _ => none
  | n :: ns, i =>
    let nl := n.toList
    if (cs.take nl.length).map Char.toLower = nl then
      some (i, cs.drop nl.length)
    else pMonthAux cs ns (i + 1)

def pMonth (names : List String) (cs : List Char) : Option (Nat × List Char) :=
  pMonthAux cs names 1

def isLeapYear (y : Nat) : Bool :=
  y % 4 == 0 && (y % 100 != 0 || y % 400 == 0)

def daysInMonth (y m : Nat) : Nat :=
  if m = 2 then (if isLeapYear y then 29 else 28)
  else if m = 4 ∨ m = 6 ∨ m = 9 ∨ m = 11 then 30
  else 31

/-- The `datetime` constructor validation. -/
def mkDateTime (y mo d h mi s f : Nat) : Option DateTime :=
  if 1 ≤ y ∧ y ≤ 9999 ∧ 1 ≤ mo ∧ mo ≤ 12 ∧ 1 ≤ d ∧ d ≤ daysInMonth y mo ∧
      h ≤ 23 ∧ mi ≤ 59 ∧ s ≤ 59 ∧ f ≤ 999999 then
    some ⟨y, mo, d, h, mi, s, f⟩
  else none

/-- Parse `%Y-%m-%d`. -/
def pYmd (cs : List Char) : Option (Nat × Nat × Nat × List Char) := do
  let (y, cs1) ← pNum 4 4 cs
  let cs2 ← pCharCI '-' cs1
  let (mo, cs3) ← pNum 1 2 cs2
  let cs4 ← pCharCI '-' cs3
  let (d, cs5) ← pNum 1 2 cs4
  some (y, mo, d, cs5)

/-- Parse `%H:%M:%S`. -/
def pHms (cs : List Char) : Option (Nat × Nat × Nat × List Char) := do
  let (h, cs1) ← pNum 1 2 cs
  let cs2 ← pCharCI ':' cs1
  let (mi, cs3) ← pNum 1 2 cs2
  let cs4 ← pCharCI ':' cs3
  let (s, cs5) ← pNum 1 2 cs4
  some (h, mi, s, cs5)

/-- strptime with format `%Y-%m-%dT%H:%M:%S.%fZ`. -/
def parseIsoFracZ (cs : List Char) : Option DateTime := do
  let (y, mo, d, cs1) ← pYmd cs
  let cs2 ← pCharCI 'T' cs1
  let (h, mi, s, cs3) ← pHms cs2
  let cs4 ← pCharCI '.' cs3
  let (f, cs5) ← pFrac cs4
  let cs6 ← pCharCI 'Z' cs5
  let _ ← pEnd cs6
  mkDateTime y mo d h mi s f

/-- strptime with format `%Y-%m-%dT%H:%M:%SZ`. -/
def parseIsoZ (cs : List Char) : Option DateTime := do
  let (y, mo, d, cs1) ← pYmd cs
  let cs2 ← pCharCI 'T' cs1
  let (h, mi, s, cs3) ← pHms cs2
  let cs4 ← pCharCI 'Z' cs3
  let _ ← pEnd cs4
  mkDateTime y mo d h mi s 0

/-- strptime with format `%Y-%m-%dT%H:%M:%S`. -/
def parseIsoNoZ (cs : List Char) : Option DateTime := do
  let (y, mo, d, cs1) ← pYmd cs
  let cs2 ← pCharCI 'T' cs1
  let (h, mi, s, cs3) ← pHms cs2
  let _ ← pEnd cs3
  mkDateTime y mo d h mi s 0

/-- strptime with format `%Y-%m-%d`. -/
def parseYmdOnly (cs : List Char) : Option DateTime := do
  let (y, mo, d, cs1) ← pYmd cs
  let _ ← pEnd cs1
  mkDateTime y mo d 0 0 0 0

/-- strptime with format `%b %d, %Y` or `%B %d, %Y`. -/
def parseMonthDayYear (names : List String) (cs : List Char) : Option DateTime := do
  let (mo, cs1) ← pMonth names cs
  let cs2 ← pWs cs1
  let (d, cs3) ← pNum 1 2 cs2
  let cs4 ← pCharCI ',' cs3
  let cs5 ← pWs cs4
  let (y, cs6) ← pNum 4 4 cs5
  let _ ← pEnd cs6
  mkDateTime y mo d 0 0 0 0

/-- Model of `datetime.strptime(date_str, fmt)` restricted to the six
formats appearing in the source; any other format yields `none`. -/
def strptime (date_str fmt : String) : Option DateTime :=
  let cs := date_str.toList
  if fmt = "%Y-%m-%dT%H:%M:%S.%fZ" then parseIsoFracZ cs
  else if fmt = "%Y-%m-%dT%H:%M:%SZ" then parseIsoZ cs
  else if fmt = "%Y-%m-%dT%H:%M:%S" then parseIsoNoZ cs
  else if fmt = "%Y-%m-%d" then parseYmdOnly cs
  else if fmt = "%b %d, %Y" then parseMonthDayYear monthAbbrevs cs
  else if fmt = "%B %d, %Y" then parseMonthDayYear monthFulls cs
  else none

/-! ## Article pages as seen by the date resolver -/

/-- An element returned by `soup.select_one`, observed through the three
accesses the code makes: the `datetime` attribute, the `content`
attribute (each `none` when the attribute is missing) and the stripped
text content. -/
structure DateElem where
  datetime : Option String
  content : Option String
  text : String
deriving DecidableEq

/-- An article page as observed by `extract_date_from_article_page`: the
outcome of each `select_one` query. -/
structure DatePage where
  selectOne : String → Option DateElem

/-- The candidate date string of an element:
`elem.get('datetime') or elem.get('content') or elem.get_text(strip=True)`
(Python `or`: first truthy operand; a missing attribute and an empty
string are both falsy). -/
def DateElem.dateStr (e : DateElem) : String :=
  pyOr (pyOr (e.datetime.getD "") (e.content.getD "")) e.text

/-- The ordered selector list of `extract_date_from_article_page`. -/
def dateSelectors : List String :=
  ["time[datetime]",
   "meta[property=\"article:published_time\"]",
   "meta[name=\"publication_date\"]",
   "span[class*=\"date\"]",
   "p[class*=\"date\"]"]

/-- The ordered format list of `extract_date_from_article_page`. -/
def dateFormats : List String :=
  ["%Y-%m-%dT%H:%M:%S.%fZ",
   "%Y-%m-%dT%H:%M:%SZ",
   "%Y-%m-%dT%H:%M:%S",
   "%Y-%m-%d",
   "%b %d, %Y",
   "%B %d, %Y"]

/-- The inner `for fmt in date_formats` loop: first format that parses. -/
def tryFormats (date_str : String) : List String → Option DateTime
  | [] => none
  | fmt :: fmts =>
    match strptime date_str fmt with
    | some d => some d
    | none => tryFormats date_str fmts

/-- The outer `for selector in date_selectors` loop.  A selector is
skipped when it matches no element, when the candidate string is empty,
and also when the candidate string parses under no format — only a
successful parse returns. -/
def extractDateLoop (page : DatePage) : List String → Option DateTime
  | [] => none
  | sel :: sels =>
    match page.selectOne sel with
    | none => extractDateLoop page sels
    | some e =>
      if e.dateStr = "" then extractDateLoop page sels
      else
        match tryFormats e.dateStr dateFormats with
        | some d => some d
        | none => extractDateLoop page sels

/-- Python `article_url = f"https://claude.com{article_url}" if ...`:
the normalization applied to root-relative URLs (also used on hrefs in
`parse_blog_html`). -/
def normalizeUrl (url : String) : String :=
  if startsWithS url "/" then "https://claude.com" ++ url else url

/-- Model of `extract_date_from_article_page`: normalize the URL, fetch
the page (`none` = any exception, absorbed by the outer `except`), run
the selector/format fallback chain, and default to the current UTC time
when the chain finds nothing or the fetch fails.  The `.replace(tzinfo=
pytz.UTC)` tagging is implicit: every `DateTime` is UTC. -/
def extract_date_from_article_page (fetch : String → Option DatePage)
    (now : String → DateTime) (article_url : String) : DateTime :=
  let url := normalizeUrl article_url
  match fetch url with
  | none => now url
  | some page =>
    match extractDateLoop page dateSelectors with
    | some d => d
    | none => now url

/-! ## Article pages as seen by the description resolver -/

/-- A meta tag, observed through its `content` attribute. -/
structure MetaTag where
  content : Option String
deriving DecidableEq

/-- An article page as observed by
`extract_description_from_article_page`: the two `find` queries and the
stripped text of every `p` element in document order.  A found tag is
modelled as truthy. -/
structure DescPage where
  metaDesc : Option MetaTag
  metaOg : Option MetaTag
  paragraphs : List String
deriving DecidableEq

/-- The `for p in paragraphs` loop: first paragraph whose stripped text
is non-empty and longer than 50 characters, truncated to 500. -/
def firstPara : List String → String
  | [] => ""
  | t :: ts => if t ≠ "" ∧ 50 < t.length then takeS t 500 else firstPara ts

/-- Model of `extract_description_from_article_page`: fetch the page
(`none` = any exception, absorbed into `""`), take the first of the two
meta queries that found a tag (`find(...) or find(...)`); if that tag
has a truthy `content`, return it, else scan the paragraphs; with no
meta tag found, scan the paragraphs; with no long paragraph, return
`""`. -/
def extract_description_from_article_page (fetch : String → Option DescPage)
    (article_url : String) : String :=
  let url := normalizeUrl article_url
  match fetch url with
  | none => ""
  | some page =>
    match page.metaDesc.orElse (fun _ => page.metaOg) with
    | some meta =>
      if meta.content.getD "" ≠ "" then meta.content.getD ""
      else firstPara page.paragraphs
    | none => firstPara page.paragraphs

/-! ## Validation -/

/-- An article dictionary as `validate_article` sees it: each field that
the validator reads through `.get`, `none` standing for a missing key. -/
structure RawArticle where
  title : Option String
  link : Option String
  date : Option DateTime
deriving DecidableEq

/-- Model of `validate_article`.  `not article.get(k)` is true when the
key is missing or its value is falsy (the empty string; a datetime is
always truthy). -/
def validate_article (article : RawArticle) : Bool :=
  if article.title.getD "" = "" ∨ (article.title.getD "").length < 5 then false
  else if article.link.getD "" = "" ∨
      ¬(startsWithS (article.link.getD "") "http" ∨
        startsWithS (article.link.getD "") "/") then false
  else if article.date.isNone then false
  else true

/-! ## The listing parser -/

/-- An anchor from the listing page: its `href` attribute (the code
reads it with default `""`) and its stripped text content. -/
structure Anchor where
  href : String
  text : String
deriving DecidableEq

/-- A fully constructed article dictionary as built in
`parse_blog_html` (all five keys present). -/
structure Article where
  title : String
  link : String
  date : DateTime
  description : String
  category : String
deriving DecidableEq

/-- The dictionary built in `parse_blog_html`, as the validator sees it. -/
def Article.toRaw (a : Article) : RawArticle :=
  ⟨some a.title, some a.link, some a.date⟩

/-- Model of `extract_title`: the stripped anchor text, accepted only
when non-empty, longer than 10 characters and not starting with
`http`. -/
def extract_title (card : Anchor) : Option String :=
  let text := card.text
  if text ≠ "" ∧ 10 < text.length ∧ ¬ startsWithS text "http" then some text
  else none

/-- The navigation labels skipped by `parse_blog_html`. -/
def navLabels : List String :=
  ["Blog", "Home", "Read more", "Learn more"]

/-- The external collaborators of the parser: the two per-article
fetches and the wall clock. -/
structure Env where
  fetchDatePage : String → Option DatePage
  fetchDescPage : String → Option DescPage
  now : String → DateTime

/-- The article dictionary constructed in `parse_blog_html` for a given
link and title (date resolution, description resolution with the title
as fallback, fixed category). -/
def buildArticle (env : Env) (link title : String) : Article :=
  let date := extract_date_from_article_page env.fetchDatePage env.now link
  let description := extract_description_from_article_page env.fetchDescPage link
  let description := if description = "" then title else description
  ⟨title, link, date, description, "Blog"⟩

/-- The `for card in all_blog_links` loop of `parse_blog_html`, with the
seen-link set made explicit.  Branches in source order: empty href,
duplicate link, listing or category link (all three `continue` without
touching the seen set is wrong for the third — the code adds to the
seen set only after these checks), then title extraction, navigation
labels, record construction and validation. -/
def parseLoop (env : Env) : List Anchor → List String → List Article
  | [], _ => []
  | card :: rest, seen =>
    let href := card.href
    if href = "" then parseLoop env rest seen
    else
      let link := normalizeUrl href
      if link ∈ seen then parseLoop env rest seen
      else if endsWithS link "/blog" ∨ endsWithS link "/blog/" ∨
          containsSubS link "/category/" then parseLoop env rest seen
      else
        match extract_title card with
        | none => parseLoop env rest (link :: seen)
        | some title =>
          if title ∈ navLabels then parseLoop env rest (link :: seen)
          else
            let article := buildArticle env link title
            if validate_article article.toRaw then
              article :: parseLoop env rest (link :: seen)
            else
              parseLoop env rest (link :: seen)

/-- Model of `parse_blog_html`: `soup.select('a[href*="/blog/"]')`
keeps, in document order, the anchors whose href contains `/blog/`;
the loop then processes them with an initially empty seen set. -/
def parse_blog_html (env : Env) (anchors : List Anchor) : List Article :=
  parseLoop env (anchors.filter (fun a => containsSubS a.href "/blog/")) []

/-! ## The feed assembler -/

/-- A feed entry: the six per-article fields set on `fe`. -/
structure FeedEntry where
  title : String
  description : String
  link : String
  published : DateTime
  categoryTerm : String
  guid : String
deriving DecidableEq

/-- The feed document: the channel metadata set on `fg` and the ordered
entries. -/
structure Feed where
  title : String
  description : String
  link : String
  language : String
  authorName : String
  logo : String
  subtitle : String
  selfLink : String
  entries : List FeedEntry
deriving DecidableEq

/-- Stable insertion for the descending-by-date sort: an element passes
over exactly the strictly-later elements, so it lands after every
earlier input element with an equal or later date. -/
def insertByDateDesc (x : Article) : List Article → List Article
  | [] => [x]
  | y :: ys =>
    if x.date < y.date then y :: insertByDateDesc x ys
    else x :: y :: ys

/-- Model of `sorted(articles, key=lambda x: x["date"], reverse=True)`:
Python sorted is stable, and `reverse=True` keeps equal elements in
their original order; a stable descending insertion sort is
extensionally the same function. -/
def sortByDateDesc : List Article → List Article
  | [] => []
  | x :: xs => insertByDateDesc x (sortByDateDesc xs)

/-- Model of `generate_rss_feed`: fixed channel metadata, then one entry
per article in descending date order. -/
def generate_rss_feed (articles : List Article) (feed_name : String) : Feed :=
  { title := "Claude Blog"
    description := "Latest posts from the Claude Blog"
    link := "https://claude.com/blog"
    language := "en"
    authorName := "Claude"
    logo := "https://cdn.prod.website-files.com/6889473510b50328dbb70ae6/68c33859cc6cd903686c66a2_apple-touch-icon.png"
    subtitle := "Get practical guidance and best practices for building with Claude"
    selfLink := "https://claude.com/blog/feed_" ++ feed_name ++ ".xml"
    entries := (sortByDateDesc articles).map
      (fun a => ⟨a.title, a.description, a.link, a.date, a.category, a.link⟩) }

/-! ## The entry point -/

/-- The collaborators of `main`: the listing fetch (`none` = the
`requests` exception propagated by `fetch_blog_content`), the
enrichment environment, and whether the save sink succeeds. -/
structure MainEnv where
  listing : Option (List Anchor)
  env : Env
  saveOk : Bool

/-- The observable outcome of a run: the returned boolean, the feed
handed to the assembler (`none` when `generate_rss_feed` was never
invoked) and the file name handed back by the sink (`none` when
`save_rss_feed` was never invoked or failed). -/
structure RunOutcome where
  ok : Bool
  assembled : Option Feed
  savedFile : Option String
deriving DecidableEq

/-- Model of `main` (renamed: Lean reserves `main` for IO entry points): fetch the listing (an exception is caught by the
outer `except` and yields `False`), parse it, return `False` at once on
zero articles, otherwise assemble and save. -/
def mainEntry (m : MainEnv) (feed_name : String) : RunOutcome :=
  match m.listing with
  | none => ⟨false, none, none⟩
  | some anchors =>
    let articles := parse_blog_html m.env anchors
    if articles.isEmpty then ⟨false, none, none⟩
    else
      let feed := generate_rss_feed articles feed_name
      if m.saveOk then ⟨true, some feed, some ("feed_" ++ feed_name ++ ".xml")⟩
      else ⟨false, some feed, none⟩

/-! ## Specification-side reformulations and concrete fixtures -/

/-- The paragraph scan, stated as the spec states it: the first
paragraph whose stripped text is non-empty and exceeds 50 characters,
truncated to 500 characters, else the empty string. -/
def firstParaSpec (l : List String) : String :=
  ((l.find? (fun t => decide (t ≠ "") && decide (50 < t.length))).map
    (fun t => takeS t 500)).getD ""

/-- A fixed fallback instant standing for `datetime.now(pytz.UTC)` in
the concrete scenarios below. -/
def dT : DateTime := ⟨2030, 1, 1, 0, 0, 0, 0⟩

/-- An environment in which every per-article fetch fails. -/
def envT : Env := ⟨fun _ => none, fun _ => none, fun _ => dT⟩

/-- An article page on which every date selector comes up empty. -/
def emptyDatePage : DatePage := ⟨fun _ => none⟩

/-- An article page whose first date selector yields a non-empty but
unparsable candidate while the second selector yields a parsable one. -/
def cePage : DatePage :=
  ⟨fun sel =>
    if sel = "time[datetime]" then some ⟨some "not-a-real-date", none, ""⟩
    else if sel = "meta[property=\"article:published_time\"]" then
      some ⟨none, some "2024-01-02", ""⟩
    else none⟩

/-- An article page carrying a description meta tag without a `content`
attribute, an Open-Graph description meta tag with content, and one
long paragraph. -/
def descCEPage : DescPage :=
  ⟨some ⟨none⟩, some ⟨some "OG summary"⟩,
   ["This paragraph is certainly longer than fifty characters in total length."]⟩

/-- A run environment whose listing page holds no anchors at all. -/
def mEnvT : MainEnv := ⟨some [], envT, true⟩

/-! ## Helper lemmas -/

theorem startsWithS_claude_append (u : String) :
    startsWithS ("https://claude.com" ++ u) "/" = false := by
  obtain ⟨cs⟩ := u
  rfl

theorem normalizeUrl_idem (u : String) :
    normalizeUrl (normalizeUrl u) = normalizeUrl u := by
  unfold normalizeUrl
  by_cases h : startsWithS u "/" = true
  · simp [h, startsWithS_claude_append]
  · simp [h]

theorem extract_title_some {card : Anchor} {t : String}
    (h : extract_title card = some t) :
    t = card.text ∧ t ≠ "" ∧ 10 < t.length ∧ startsWithS t "http" = false := by
  simp only [extract_title] at h
  split at h
  · rename_i hc
    injection h with h
    subst h
    exact ⟨rfl, hc.1, hc.2.1, by simpa using hc.2.2⟩
  · cases h

theorem tryFormats_eq (s : String) : ∀ fmts : List String,
    tryFormats s fmts = fmts.findSome? (strptime s) := by
  intro fmts
  induction fmts with
  | nil => rfl
  | cons f fs ih =>
    simp only [tryFormats, List.findSome?_cons]
    cases h : strptime s f
    · simpa using ih
    · simp

theorem extractDateLoop_eq (page : DatePage) : ∀ sels : List String,
    extractDateLoop page sels = sels.findSome? (fun sel =>
      (page.selectOne sel).bind (fun e =>
        if e.dateStr = "" then none
        else dateFormats.findSome? (strptime e.dateStr))) := by
  intro sels
  induction sels with
  | nil => rfl
  | cons sel rest ih =>
    rw [List.findSome?_cons]
    cases hs : page.selectOne sel
    · simpa [extractDateLoop, hs] using ih
    · rename_i e
      by_cases he : e.dateStr = ""
      · simpa [extractDateLoop, hs, he] using ih
      · simp only [extractDateLoop, hs, he, Option.some_bind, if_false, ite_false]
        rw [tryFormats_eq]
        cases hf : List.findSome? (strptime e.dateStr) dateFormats <;> simp [hf, ih]

theorem firstPara_eq : ∀ l : List String, firstPara l = firstParaSpec l := by
  intro l
  induction l with
  | nil => rfl
  | cons t ts ih =>
    by_cases h : t ≠ "" ∧ 50 < t.length
    · have hp : (decide (t ≠ "") && decide (50 < t.length)) = true := by
        simp [h.1, h.2]
      simp [firstPara, firstParaSpec, h, List.find?, hp]
    · have hp : (decide (t ≠ "") && decide (50 < t.length)) = false := by
        rcases not_and_or.mp h with h1 | h1
        · simp [not_not.mp h1]
        · simp [h1]
      rw [show firstPara (t :: ts) = firstPara ts from by simp [firstPara, h], ih]
      simp only [firstParaSpec, List.find?]
      rw [hp]

theorem mem_insertByDateDesc {x z : Article} : ∀ {l : List Article},
    z ∈ insertByDateDesc x l ↔ z = x ∨ z ∈ l := by
  intro l
  induction l with
  | nil => simp [insertByDateDesc]
  | cons y ys ih =>
    simp only [insertByDateDesc]
    split
    · simp only [List.mem_cons, ih]
      tauto
    · simp only [List.mem_cons]

theorem pairwise_insertByDateDesc {x : Article} : ∀ {l : List Article},
    l.Pairwise (fun a b => b.date ≤ a.date) →
    (insertByDateDesc x l).Pairwise (fun a b => b.date ≤ a.date) := by
  intro l
  induction l with
  | nil =>
    intro _
    simp [insertByDateDesc]
  | cons y ys ih =>
    intro h
    rw [List.pairwise_cons] at h
    obtain ⟨hy, hys⟩ := h
    simp only [insertByDateDesc]
    split
    · rename_i hxy
      rw [List.pairwise_cons]
      refine ⟨?_, ih hys⟩
      intro z hz
      rcases mem_insertByDateDesc.mp hz with rfl | hz
      · exact le_of_lt hxy
      · exact hy z hz
    · rename_i hxy
      have hyx : y.date ≤ x.date := not_lt.mp hxy
      rw [List.pairwise_cons]
      refine ⟨?_, List.Pairwise.cons hy hys⟩
      intro z hz
      rcases List.mem_cons.mp hz with rfl | hz
      · exact hyx
      · exact le_trans (hy z hz) hyx

theorem pairwise_sortByDateDesc : ∀ l : List Article,
    (sortByDateDesc l).Pairwise (fun a b => b.date ≤ a.date) := by
  intro l
  induction l with
  | nil => simp [sortByDateDesc]
  | cons x xs ih =>
    simp only [sortByDateDesc]
    exact pairwise_insertByDateDesc ih

theorem filter_insertByDateDesc (x : Article) (d : DateTime) : ∀ l : List Article,
    (insertByDateDesc x l).filter (fun a => decide (a.date = d)) =
      if x.date = d then x :: l.filter (fun a => decide (a.date = d))
      else l.filter (fun a => decide (a.date = d)) := by
  intro l
  induction l with
  | nil =>
    by_cases hx : x.date = d <;> simp [insertByDateDesc, List.filter, hx]
  | cons y ys ih =>
    simp only [insertByDateDesc]
    split
    · rename_i hxy
      rw [List.filter_cons, List.filter_cons, ih]
      by_cases hy : y.date = d
      · by_cases hx : x.date = d
        · exact absurd hxy (by rw [hx, hy]; exact lt_irrefl d)
        · simp [hx, hy]
      · simp [hy]
    · rename_i hxy
      rw [List.filter_cons]
      by_cases hx : x.date = d <;> simp [hx]

theorem filter_sortByDateDesc (d : DateTime) : ∀ l : List Article,
    (sortByDateDesc l).filter (fun a => decide (a.date = d)) =
      l.filter (fun a => decide (a.date = d)) := by
  intro l
  induction l with
  | nil => rfl
  | cons x xs ih =>
    simp only [sortByDateDesc]
    rw [filter_insertByDateDesc, List.filter_cons, ih]
    by_cases hx : x.date = d <;> simp [hx]

theorem mem_parseLoop {env : Env} : ∀ {cards : List Anchor} {seen : List String}
    {a : Article}, a ∈ parseLoop env cards seen →
    ∃ card ∈ cards, ∃ t, extract_title card = some t ∧ t ∉ navLabels ∧
      a = buildArticle env (normalizeUrl card.href) t ∧
      validate_article a.toRaw = true := by
  intro cards
  induction cards with
  | nil =>
    intro seen a ha
    simp [parseLoop] at ha
  | cons card rest ih =>
    intro seen a ha
    simp only [parseLoop] at ha
    split at ha
    · exact Exists.imp (fun c => And.imp_left (List.mem_cons_of_mem card)) (ih ha)
    · split at ha
      · exact Exists.imp (fun c => And.imp_left (List.mem_cons_of_mem card)) (ih ha)
      · split at ha
        · exact Exists.imp (fun c => And.imp_left (List.mem_cons_of_mem card)) (ih ha)
        · split at ha
          · exact Exists.imp (fun c => And.imp_left (List.mem_cons_of_mem card)) (ih ha)
          · rename_i title heq
            split at ha
            · exact Exists.imp (fun c => And.imp_left (List.mem_cons_of_mem card)) (ih ha)
            · rename_i hnav
              split at ha
              · rename_i hv
                rcases List.mem_cons.mp ha with rfl | ha2
                · exact ⟨card, List.mem_cons_self _ _, title, heq, hnav, rfl, hv⟩
                · exact Exists.imp (fun c => And.imp_left (List.mem_cons_of_mem card)) (ih ha2)
              · exact Exists.imp (fun c => And.imp_left (List.mem_cons_of_mem card)) (ih ha)

theorem parseLoop_links (env : Env) : ∀ (cards : List Anchor) (seen : List String),
    (∀ a ∈ parseLoop env cards seen, a.link ∉ seen) ∧
      ((parseLoop env cards seen).map Article.link).Nodup := by
  intro cards
  induction cards with
  | nil =>
    intro seen
    simp [parseLoop]
  | cons card rest ih =>
    intro seen
    simp only [parseLoop]
    split
    · exact ih seen
    · split
      · exact ih seen
      · split
        · exact ih seen
        · split
          · obtain ⟨h1, h2⟩ := ih (normalizeUrl card.href :: seen)
            exact ⟨fun a ha hs => h1 a ha (List.mem_cons_of_mem _ hs), h2⟩
          · split
            · obtain ⟨h1, h2⟩ := ih (normalizeUrl card.href :: seen)
              exact ⟨fun a ha hs => h1 a ha (List.mem_cons_of_mem _ hs), h2⟩
            · split
              · obtain ⟨h1, h2⟩ := ih (normalizeUrl card.href :: seen)
                refine ⟨?_, ?_⟩
                · intro a ha
                  rcases List.mem_cons.mp ha with rfl | ha2
                  · intro hs
                    exact (by assumption : ¬ normalizeUrl card.href ∈ seen) hs
                  · exact fun hs => h1 a ha2 (List.mem_cons_of_mem _ hs)
                · rw [List.map_cons, List.nodup_cons]
                  refine ⟨?_, h2⟩
                  intro hmem
                  rw [List.mem_map] at hmem
                  obtain ⟨b, hb, hbl⟩ := hmem
                  apply h1 b hb
                  rw [hbl]
                  exact List.mem_cons_self _ _
              · obtain ⟨h1, h2⟩ := ih (normalizeUrl card.href :: seen)
                exact ⟨fun a ha hs => h1 a ha (List.mem_cons_of_mem _ hs), h2⟩

/-! ## The claims -/

/-- C1: for every listing markup input, no two records returned by
`parse_blog_html` share the same link — each normalized href is checked
against the seen-set before a record is created, so at most one record
per absolute link is emitted. -/
theorem C1_unique_links (env : Env) (anchors : List Anchor) :
    ((parse_blog_html env anchors).map Article.link).Nodup :=
  (parseLoop_links env
    (anchors.filter (fun a => containsSubS a.href "/blog/")) []).2

/-- C2: in the feed built by `generate_rss_feed`, items are in
descending order of their published timestamp (an item strictly later
than another appears before it), and the items carrying any fixed
timestamp appear in the same relative order as in the input list
(stable tie-break by input order). -/
theorem C2_feed_sorted_stable (articles : List Article) (feed_name : String) :
    ((generate_rss_feed articles feed_name).entries.Pairwise
      (fun A B => B.published ≤ A.published)) ∧
    (∀ d : DateTime,
      (generate_rss_feed articles feed_name).entries.filter
          (fun e => decide (e.published = d)) =
        (articles.map (fun a =>
          (⟨a.title, a.description, a.link, a.date, a.category, a.link⟩
            : FeedEntry))).filter (fun e => decide (e.published = d))) := by
  constructor
  · dsimp only [generate_rss_feed]
    rw [List.pairwise_map]
    exact pairwise_sortByDateDesc articles
  · intro d
    dsimp only [generate_rss_feed]
    rw [List.filter_map, List.filter_map]
    rw [show ((fun e : FeedEntry => decide (e.published = d)) ∘ (fun a : Article =>
      (⟨a.title, a.description, a.link, a.date, a.category, a.link⟩ : FeedEntry))) =
      (fun a : Article => decide (a.date = d)) from rfl]
    rw [filter_sortByDateDesc]

/-- C3 counterexample: on a page whose first date selector yields the
non-empty candidate `"not-a-real-date"` (which parses under no format)
and whose second selector yields `"2024-01-02"`,
`extract_date_from_article_page` returns the date parsed from the
second selector rather than the current time — so the loop does consult
later selectors after a candidate fails to parse, contradicting the
claim. -/
theorem C3_counterexample :
    cePage.selectOne "time[datetime]" =
      some ⟨some "not-a-real-date", none, ""⟩ ∧
    (⟨some "not-a-real-date", none, ""⟩ : DateElem).dateStr ≠ "" ∧
    tryFormats "not-a-real-date" dateFormats = none ∧
    extract_date_from_article_page (fun _ => some cePage) (fun _ => dT)
      "https://claude.com/blog/x" = ⟨2024, 1, 2, 0, 0, 0, 0⟩ ∧
    (⟨2024, 1, 2, 0, 0, 0, 0⟩ : DateTime) ≠ dT := by
  decide

/-- C3 (amended): on a fetched page, `extract_date_from_article_page`
walks the selectors in their fixed order and, for each selector whose
element yields a non-empty candidate string, tries every timestamp
format in order; the first successful parse anywhere in this combined
chain is returned, and only when every candidate fails does the
function fall back to the current UTC time — a candidate that fails to
parse does not stop the chain. -/
theorem C3_selector_chain (fetch : String → Option DatePage)
    (now : String → DateTime) (url : String) (page : DatePage)
    (hfetch : fetch (normalizeUrl url) = some page) :
    extract_date_from_article_page fetch now url =
      (dateSelectors.findSome? (fun sel =>
        (page.selectOne sel).bind (fun e =>
          if e.dateStr = "" then none
          else dateFormats.findSome? (strptime e.dateStr)))).getD
        (now (normalizeUrl url)) := by
  simp only [extract_date_from_article_page, hfetch]
  rw [extractDateLoop_eq]
  cases hq : dateSelectors.findSome? (fun sel =>
    (page.selectOne sel).bind (fun e =>
      if e.dateStr = "" then none
      else dateFormats.findSome? (strptime e.dateStr))) <;> simp [hq]

/-- Witness for C3 (amended) at the concrete two-selector page. -/
theorem C3_selector_chain_witness :
    extract_date_from_article_page (fun _ => some cePage) (fun _ => dT)
      "https://claude.com/blog/x" =
      (dateSelectors.findSome? (fun sel =>
        (cePage.selectOne sel).bind (fun e =>
          if e.dateStr = "" then none
          else dateFormats.findSome? (strptime e.dateStr)))).getD dT :=
  C3_selector_chain (fun _ => some cePage) (fun _ => dT)
    "https://claude.com/blog/x" cePage rfl

/-- C4: `extract_date_from_article_page` never raises — when the fetch
fails it returns the current UTC time, when the fetched page yields no
parsable date it returns the current UTC time, and in the fetch-failure
case the article record is still constructed and included by
`parse_blog_html` (with that fallback date) rather than omitted. -/
theorem C4_soft_failure :
    (∀ (fetch : String → Option DatePage) (now : String → DateTime)
      (url : String), fetch (normalizeUrl url) = none →
      extract_date_from_article_page fetch now url = now (normalizeUrl url)) ∧
    (∀ (fetch : String → Option DatePage) (now : String → DateTime)
      (url : String) (page : DatePage), fetch (normalizeUrl url) = some page →
      extractDateLoop page dateSelectors = none →
      extract_date_from_article_page fetch now url = now (normalizeUrl url)) ∧
    (∀ (env : Env) (card : Anchor) (t : String),
      containsSubS card.href "/blog/" = true →
      card.href ≠ "" →
      ¬(endsWithS (normalizeUrl card.href) "/blog" = true ∨
        endsWithS (normalizeUrl card.href) "/blog/" = true ∨
        containsSubS (normalizeUrl card.href) "/category/" = true) →
      extract_title card = some t →
      t ∉ navLabels →
      validate_article (buildArticle env (normalizeUrl card.href) t).toRaw = true →
      env.fetchDatePage (normalizeUrl card.href) = none →
      parse_blog_html env [card] = [buildArticle env (normalizeUrl card.href) t] ∧
      (buildArticle env (normalizeUrl card.href) t).date =
        env.now (normalizeUrl card.href)) := by
  refine ⟨?_, ?_, ?_⟩
  · intro fetch now url h
    simp [extract_date_from_article_page, h]
  · intro fetch now url page hf hl
    simp [extract_date_from_article_page, hf, hl]
  · intro env card t h0 h1 h2 h3 h4 h5 h6
    constructor
    · have hfil : ([card].filter (fun a => containsSubS a.href "/blog/")) = [card] := by
        simp [List.filter, h0]
      simp only [parse_blog_html]
      rw [hfil]
      simp only [parseLoop, h3]
      rw [if_neg h1, if_neg (List.not_mem_nil _), if_neg h2, if_neg h4, if_pos h5]
    · show (buildArticle env (normalizeUrl card.href) t).date = _
      simp only [buildArticle]
      simp only [extract_date_from_article_page, normalizeUrl_idem, h6]

/-- Witness for C4 at concrete inputs: a failing fetch, a page with no
date, and a single-anchor listing whose article-page fetch fails. -/
theorem C4_soft_failure_witness :
    extract_date_from_article_page (fun _ => none) (fun _ => dT)
      "https://claude.com/blog/x" = dT ∧
    extract_date_from_article_page (fun _ => some emptyDatePage) (fun _ => dT)
      "https://claude.com/blog/x" = dT ∧
    parse_blog_html envT [⟨"/blog/welcome-post", "A Welcome Post Title"⟩] =
      [buildArticle envT (normalizeUrl "/blog/welcome-post")
        "A Welcome Post Title"] :=
  ⟨C4_soft_failure.1 (fun _ => none) (fun _ => dT)
     "https://claude.com/blog/x" rfl,
   C4_soft_failure.2.1 (fun _ => some emptyDatePage) (fun _ => dT)
     "https://claude.com/blog/x" emptyDatePage rfl rfl,
   (C4_soft_failure.2.2 envT ⟨"/blog/welcome-post", "A Welcome Post Title"⟩
     "A Welcome Post Title" (by decide) (by decide) (by decide) (by decide)
     (by decide) (by decide) rfl).1⟩

/-- C5: every record emitted by `parse_blog_html` carries a non-empty
description, and the description equals the resolved description when
that is non-empty and the title otherwise. -/
theorem C5_description_nonempty (env : Env) (anchors : List Anchor) :
    (parse_blog_html env anchors).all (fun a =>
      decide (a.description ≠ "" ∧
        a.description =
          (if extract_description_from_article_page env.fetchDescPage a.link = ""
           then a.title
           else extract_description_from_article_page env.fetchDescPage a.link)))
      = true := by
  rw [List.all_eq_true]
  intro a ha
  rw [decide_eq_true_eq]
  simp only [parse_blog_html] at ha
  obtain ⟨card, _, t, ht, _, rfl, _⟩ := mem_parseLoop ha
  obtain ⟨_, htne, _, _⟩ := extract_title_some ht
  simp only [buildArticle]
  by_cases hd : extract_description_from_article_page env.fetchDescPage
    (normalizeUrl card.href) = ""
  · simp [hd, htne]
  · simp [hd]

/-- C6 counterexample: on a page whose description meta tag is present
but has no `content` attribute while the Open-Graph description meta
tag has content, `extract_description_from_article_page` skips the
Open-Graph tag entirely (the `or` chain already picked the first found
tag) and falls back to the paragraph scan — contradicting the claimed
meta-then-Open-Graph fallback chain. -/
theorem C6_counterexample :
    descCEPage.metaDesc = some ⟨none⟩ ∧
    descCEPage.metaOg = some ⟨some "OG summary"⟩ ∧
    extract_description_from_article_page (fun _ => some descCEPage)
      "https://claude.com/blog/x" =
      "This paragraph is certainly longer than fifty characters in total length." ∧
    "This paragraph is certainly longer than fifty characters in total length."
      ≠ "OG summary" := by
  decide

/-- C6 (amended): `extract_description_from_article_page` selects the
first present meta tag among the description tag and the Open-Graph
description tag; if that tag has a non-empty content attribute its
content is returned, otherwise the paragraphs are scanned in document
order for the first stripped text exceeding 50 characters (truncated to
500), with the other meta tag never consulted; with no meta tag found
the paragraph scan runs directly; with no long paragraph, and on any
fetch or parse failure, the empty string is returned. -/
theorem C6_description_resolution (fetch : String → Option DescPage)
    (url : String) :
    (fetch (normalizeUrl url) = none →
      extract_description_from_article_page fetch url = "") ∧
    (∀ page m c, fetch (normalizeUrl url) = some page →
      page.metaDesc = some m → m.content = some c → c ≠ "" →
      extract_description_from_article_page fetch url = c) ∧
    (∀ page m c, fetch (normalizeUrl url) = some page →
      page.metaDesc = none → page.metaOg = some m → m.content = some c →
      c ≠ "" →
      extract_description_from_article_page fetch url = c) ∧
    (∀ page m, fetch (normalizeUrl url) = some page →
      page.metaDesc = some m → m.content.getD "" = "" →
      extract_description_from_article_page fetch url =
        firstParaSpec page.paragraphs) ∧
    (∀ page, fetch (normalizeUrl url) = some page →
      page.metaDesc = none →
      (page.metaOg = none ∨
        ∃ m, page.metaOg = some m ∧ m.content.getD "" = "") →
      extract_description_from_article_page fetch url =
        firstParaSpec page.paragraphs) := by
  refine ⟨?_, ?_, ?_, ?_, ?_⟩
  · intro h
    simp [extract_description_from_article_page, h]
  · intro page m c hf hd hc hne
    simp [extract_description_from_article_page, hf, hd, hc, hne, Option.orElse]
  · intro page m c hf hd hog hc hne
    simp [extract_description_from_article_page, hf, hd, hog, hc, hne,
      Option.orElse]
  · intro page m hf hd hc
    simp [extract_description_from_article_page, hf, hd, hc, Option.orElse,
      firstPara_eq]
  · intro page hf hd hog
    rcases hog with hog | ⟨m, hog, hc⟩
    · simp [extract_description_from_article_page, hf, hd, hog, Option.orElse,
        firstPara_eq]
    · simp [extract_description_from_article_page, hf, hd, hog, hc,
        Option.orElse, firstPara_eq]

/-- Witness for C6 (amended): on the page with a contentless
description meta tag the paragraph scan is used. -/
theorem C6_description_resolution_witness :
    extract_description_from_article_page (fun _ => some descCEPage)
      "https://claude.com/blog/x" = firstParaSpec descCEPage.paragraphs :=
  (C6_description_resolution (fun _ => some descCEPage)
    "https://claude.com/blog/x").2.2.2.1 descCEPage ⟨none⟩ rfl rfl rfl

/-- C7: `validate_article` returns `False` exactly when the title is
absent or shorter than 5 characters, or the link is absent or starts
with neither `http` nor a root-relative slash, or the date is absent;
otherwise it returns `True` (the function is total, so it never
raises). -/
theorem C7_validate_iff (a : RawArticle) :
    validate_article a = false ↔
      ((a.title = none ∨ (a.title.getD "").length < 5) ∨
       (a.link = none ∨
         ¬(startsWithS (a.link.getD "") "http" = true ∨
           startsWithS (a.link.getD "") "/" = true)) ∨
       a.date = none) := by
  obtain ⟨t, l, d⟩ := a
  simp only [validate_article]
  split_ifs with h1 h2 h3
  · refine iff_of_true rfl ?_
    left
    rcases t with _ | s
    · exact Or.inl rfl
    · refine Or.inr ?_
      rcases h1 with h1 | h1
      · have hs : s = "" := by simpa using h1
        simp [hs]
      · simpa using h1
  · refine iff_of_true rfl ?_
    right
    left
    rcases l with _ | s
    · exact Or.inl rfl
    · refine Or.inr ?_
      rcases h2 with h2 | h2
      · have hs : s = "" := by simpa using h2
        subst hs
        decide
      · simpa using h2
  · refine iff_of_true rfl ?_
    right
    right
    exact Option.isNone_iff_eq_none.mp h3
  · refine iff_of_false (by simp) ?_
    push_neg at h1 h2
    rintro ((hc | hc) | (hc | hc) | hc)
    · exact h1.1 (by simp [hc])
    · exact absurd hc (not_lt.mpr h1.2)
    · exact h2.1 (by simp [hc])
    · exact hc h2.2
    · exact h3 (by simp [hc])

/-- C8: every record emitted by `parse_blog_html` has a title that is
not one of the fixed navigation labels and is at least 5 characters
long; in particular an anchor reading exactly `Read more` that points
to the well-formed href `/blog/c` yields no record. -/
theorem C8_title_quality :
    (∀ (env : Env) (anchors : List Anchor),
      (parse_blog_html env anchors).all (fun a =>
        decide (a.title ∉ navLabels ∧ 5 ≤ a.title.length)) = true) ∧
    parse_blog_html envT [⟨"/blog/c", "Read more"⟩] = [] := by
  constructor
  · intro env anchors
    rw [List.all_eq_true]
    intro a ha
    rw [decide_eq_true_eq]
    simp only [parse_blog_html] at ha
    obtain ⟨card, _, t, ht, hnav, rfl, _⟩ := mem_parseLoop ha
    obtain ⟨_, _, hlen, _⟩ := extract_title_some ht
    refine ⟨by simpa [buildArticle] using hnav, ?_⟩
    have h : (buildArticle env (normalizeUrl card.href) t).title = t := rfl
    rw [h]
    omega
  · decide

/-- C9: when parsing the listing yields zero article records, `main`
returns `False` without raising, without invoking the feed assembler
and without invoking the persistence sink. -/
theorem C9_empty_run (m : MainEnv) (feed_name : String)
    (anchors : List Anchor) (hls : m.listing = some anchors)
    (hparse : parse_blog_html m.env anchors = []) :
    mainEntry m feed_name = ⟨false, none, none⟩ := by
  simp [mainEntry, hls, hparse]

/-- Witness for C9: a listing with no anchors parses to zero records
and the run produces no feed and no file. -/
theorem C9_empty_run_witness :
    mainEntry mEnvT "claude_blog" = ⟨false, none, none⟩ :=
  C9_empty_run mEnvT "claude_blog" [] rfl rfl

/-- C10 counterexample: the anchor `./blog/abcdefgh` is selected (its
href contains `/blog/`), yields a valid long title, and produces a
constructed record whose link starts with neither `http` nor `/`, so
`validate_article` rejects it and the rejection branch of
`parse_blog_html` is reached — the record is dropped from the
output. -/
theorem C10_counterexample :
    containsSubS "./blog/abcdefgh" "/blog/" = true ∧
    extract_title ⟨"./blog/abcdefgh", "A Sufficiently Long Title"⟩ =
      some "A Sufficiently Long Title" ∧
    validate_article (buildArticle envT (normalizeUrl "./blog/abcdefgh")
      "A Sufficiently Long Title").toRaw = false ∧
    parse_blog_html envT [⟨"./blog/abcdefgh", "A Sufficiently Long Title"⟩]
      = [] := by
  decide

/-- C10 (amended): a record constructed inside `parse_blog_html` always
passes the validator provided its link starts with `http` or `/` — the
title passed `extract_title` (length above 10, hence at least 5) and
the date is always present — and normalization turns every
root-relative href into a link starting with `http`; the rejection
branch is reachable only for hrefs that contain `/blog/` yet start
with neither `/` nor `http`. -/
theorem C10_validator_on_constructed :
    (∀ (env : Env) (link t : String) (card : Anchor),
      extract_title card = some t →
      (startsWithS link "http" = true ∨ startsWithS link "/" = true) →
      validate_article (buildArticle env link t).toRaw = true) ∧
    (∀ href : String, startsWithS href "/" = true →
      startsWithS (normalizeUrl href) "http" = true) := by
  constructor
  · intro env link t card ht hlink
    obtain ⟨_, htne, hlen, _⟩ := extract_title_some ht
    have hlne : link ≠ "" := by
      rintro rfl
      rcases hlink with hl | hl <;> exact absurd hl (by decide)
    have hT : ¬((some t).getD "" = "" ∨ ((some t).getD "").length < 5) := by
      rw [Option.getD_some]
      rintro (h | h)
      · exact htne h
      · omega
    have hL : ¬((some link).getD "" = "" ∨
        ¬(startsWithS ((some link).getD "") "http" = true ∨
          startsWithS ((some link).getD "") "/" = true)) := by
      rw [Option.getD_some]
      rintro (h | h)
      · exact hlne h
      · exact h hlink
    simp only [validate_article, buildArticle, Article.toRaw]
    rw [if_neg hT, if_neg hL]
    simp
  · intro href h
    unfold normalizeUrl
    rw [if_pos h]
    obtain ⟨cs⟩ := href
    rfl

/-- Witness for C10 (amended) at a concrete absolute link and a
concrete root-relative href. -/
theorem C10_validator_on_constructed_witness :
    validate_article (buildArticle envT "https://claude.com/blog/x"
      "A Sufficiently Long Title").toRaw = true ∧
    startsWithS (normalizeUrl "/blog/x") "http" = true :=
  ⟨C10_validator_on_constructed.1 envT "https://claude.com/blog/x"
     "A Sufficiently Long Title" ⟨"/blog/x", "A Sufficiently Long Title"⟩
     (by decide) (Or.inl (by decide)),
   C10_validator_on_constructed.2 "/blog/x" (by decide)⟩
